import Mathlib

/-!
Verification of the find-files search engine (`src/server.js`).

The engine is shallowly embedded: JS strings become Lean `String`
(lists of characters), byte sizes become `Nat`, timestamps (JS `Date`
instants, compared through their millisecond value) become `Int`, the
file system visible to one search becomes a finite tree (`FSNode`),
the `mime.lookup` collaborator becomes a parameter
`mimeLookup : String → Option String`, and the wall clock becomes an
oracle `elapsed : Nat → Nat` giving the elapsed milliseconds observed
at the k-th queue pop.  Fallible operations (`readdir`, `stat`,
`readFile`) are embedded as the `Option`-shaped constructors of
`FSNode`.  JS truthiness of optional parameters (`minSize && …`,
`contentSearch && …`) is embedded explicitly: `0` and `""` are falsy.
-/

/-- Anchored-at-the-start comparison: `sub` occurs at the head of the
second list. -/
def subAt : List Char → List Char → Bool
  | [], _ => true
  | _ :: _, [] => false
  | a :: as, b :: bs => a = b && subAt as bs

/-- Occurrence anywhere: `sub` occurs contiguously somewhere in the
argument list. -/
def hasSub (sub : List Char) : List Char → Bool
  | [] => subAt sub []
  | c :: rest => subAt sub (c :: rest) || hasSub sub rest

/-- Embedding of JS `hay.includes(pat)`. -/
def strIncludes (hay pat : String) : Bool :=
  hasSub pat.data hay.data

/-- Embedding of JS `s.startsWith(p)`. -/
def strStarts (s p : String) : Bool :=
  subAt p.data s.data

/-- Embedding of JS `s.endsWith(p)`. -/
def strEnds (s p : String) : Bool :=
  subAt p.data.reverse s.data.reverse

/-- Embedding of JS `s.toLowerCase()` (ASCII case folding). -/
def strLower (s : String) : String :=
  ⟨s.data.map Char.toLower⟩

/-- Tokens of a compiled wildcard pattern: `wildcardToRegex` escapes `.`,
turns `*` into `.*` and `?` into `.`; every other character stands for
itself.  (The source escapes only `.`, so a pattern containing another
regex metacharacter such as `+` would reach the JS regex engine
unescaped; the embedding is faithful for patterns free of those
characters, which the `plainPattern` guard below makes explicit where a
theorem quantifies over all patterns.) -/
inductive WTok where
  | lit (c : Char)
  | star
  | anyc
deriving DecidableEq

/-- Embedding of `wildcardToRegex` (src/server.js lines 28-34): the
compiled token list of a pattern. -/
def compileWildcard (p : String) : List WTok :=
  p.data.map fun c =>
    if c = '*' then WTok.star
    else if c = '?' then WTok.anyc
    else WTok.lit c

/-- The four characters that JS regex `.` (compiled without the `s`
flag, as at line 33) does not match: `\n`, `\r`, U+2028 and U+2029. -/
def isLineTerm (c : Char) : Bool :=
  c = '\n' || c = '\r' || c = '\u2028' || c = '\u2029'

/-- The suffixes of the input reachable by consuming a (possibly empty)
run of non-line-terminator characters — the ways JS `.*` can advance. -/
def nltTails : List Char → List (List Char)
  | [] => [[]]
  | x :: rest => (x :: rest) :: (if isLineTerm x then [] else nltTails rest)

/-- Matching a compiled token list against a character list, anchored at
both ends (the source wraps the translated pattern in a start anchor and
an end anchor): a literal consumes exactly its character; `.` (from `?`)
and each step of `.*` (from `*`) consume one character that is not a
line terminator, because JS regex `.` without the `s` flag excludes
`isLineTerm` characters.  The matcher works over code points while the
JS regex (no `u` flag) works over UTF-16 code units; the two coincide
on strings of basic-plane characters, and the theorem conjunct whose
truth depends on the difference is stated for such strings. -/
def wmatch : List WTok → List Char → Bool
  | [], xs => xs.isEmpty
  | WTok.lit c :: ps, xs =>
    match xs with
    | [] => false
    | x :: rest => c = x && wmatch ps rest
  | WTok.anyc :: ps, xs =>
    match xs with
    | [] => false
    | x :: rest => !isLineTerm x && wmatch ps rest
  | WTok.star :: ps, xs => (nltTails xs).any fun ys => wmatch ps ys

/-- Embedding of `wildcardToRegex(p).test(s)`: the anchored full-string
wildcard match. -/
def wildcardTest (p s : String) : Bool :=
  wmatch (compileWildcard p) s.data

/-- Patterns whose characters, besides the translated `*`, `?` and `.`,
are not JS-regex metacharacters; on these the embedding of the compiled
pattern is exact. -/
def plainPattern (p : String) : Bool :=
  p.data.all fun c =>
    !(c = '\\' || c = '^' || c = '$' || c = '+' || c = '(' || c = ')' ||
      c = '[' || c = ']' || c = '{' || c = '}' || c = '|')

/-- The search configuration: the named parameters of `findFiles`
(src/server.js lines 37-53).  `startDirs` is passed separately.
Timestamp-valued bounds are instants (`Int`); `none` stands for an
absent (undefined) argument. -/
structure SearchConfig where
  filename : Option String
  extension : Option String
  minSize : Option Nat
  maxSize : Option Nat
  createdAfter : Option Int
  createdBefore : Option Int
  modifiedAfter : Option Int
  modifiedBefore : Option Int
  recursive : Bool
  caseSensitive : Bool
  contentSearch : Option String
  fileType : Option String
  maxResults : Nat
  timeoutMs : Nat
deriving DecidableEq

/-- JS truthiness of an optional string argument: absent and `""` are
falsy. -/
def truthyStr : Option String → Bool
  | none => false
  | some s => !(s = "")

/-- JS truthiness of an optional numeric argument: absent and `0` are
falsy. -/
def truthyNum : Option Nat → Bool
  | none => false
  | some n => !(n = 0)

/-- The `stat` metadata of a file (the fields `findFiles` reads). -/
structure FileStat where
  size : Nat
  birthtime : Int
  mtime : Int
deriving DecidableEq

/-- The filter chain applied to one regular file
(src/server.js lines 88-124).  `mimeType` is
`mime.lookup(filePath) || 'application/octet-stream'` already resolved;
`content` is the outcome of `readFile` (`none` = read error), consulted
only in the content-search branch.  Each `continue` of the source is a
short-circuiting conjunct here, in source order. -/
def fileMatches (cfg : SearchConfig) (mimeType : String) (fileName : String)
    (st : FileStat) (content : Option String) : Bool :=
  let nameOk :=
    if truthyStr cfg.filename then
      let fn := cfg.filename.getD ""
      let testName := if cfg.caseSensitive then fileName else strLower fileName
      let testPattern := if cfg.caseSensitive then fn else strLower fn
      wildcardTest fn testName || strIncludes testName testPattern
    else true
  let extOk :=
    if truthyStr cfg.extension then
      strEnds fileName ("." ++ cfg.extension.getD "")
    else true
  let minOk :=
    if truthyNum cfg.minSize then !(st.size < cfg.minSize.getD 0) else true
  let maxOk :=
    if truthyNum cfg.maxSize then !(st.size > cfg.maxSize.getD 0) else true
  let caOk :=
    match cfg.createdAfter with
    | some t => !(st.birthtime < t)
    | none => true
  let cbOk :=
    match cfg.createdBefore with
    | some t => !(st.birthtime > t)
    | none => true
  let maOk :=
    match cfg.modifiedAfter with
    | some t => !(st.mtime < t)
    | none => true
  let mbOk :=
    match cfg.modifiedBefore with
    | some t => !(st.mtime > t)
    | none => true
  let typeOk :=
    if truthyStr cfg.fileType then
      strStarts mimeType (cfg.fileType.getD "")
    else true
  let contentOk :=
    if truthyStr cfg.contentSearch then
      if strStarts mimeType "text/" then
        match content with
        | some c => strIncludes c (cfg.contentSearch.getD "")
        | none => false
      else true
    else true
  nameOk && extOk && minOk && maxOk && caOk && cbOk && maOk && mbOk &&
    typeOk && contentOk

/-- The file-system tree visible to one search.  Each node is what the
Metadata Provider reports for one path: a regular file with its stat
data and the outcome of reading its content (`none` = read error), a
listable directory with its entries, a directory whose `readdir` fails,
or an entry whose `stat` fails. -/
inductive FSNode where
  | file (st : FileStat) (content : Option String)
  | dirOk (entries : List (String × FSNode))
  | dirFail
  | inaccessible

mutual

/-- Size of a node: the number of nodes in the tree rooted there. -/
def FSNode.size : FSNode → Nat
  | FSNode.file _ _ => 1
  | FSNode.dirOk es => 1 + entsSize es
  | FSNode.dirFail => 1
  | FSNode.inaccessible => 1

/-- Total size of a list of named nodes. -/
def entsSize : List (String × FSNode) → Nat
  | [] => 0
  | e :: rest => FSNode.size e.2 + entsSize rest

end

/-- One match record (src/server.js lines 126-132); `created` and
`modified` keep the instants (their ISO rendering is presentation). -/
structure MatchRecord where
  path : String
  size : Nat
  created : Int
  modified : Int
  type : String
deriving DecidableEq

/-- Embedding of `path.join(dir, name)`. -/
def joinPath (dir name : String) : String :=
  dir ++ "/" ++ name

/-- The errors `findFiles` can raise: the timeout (`throw new
Error("Search timed out")`, src/server.js line 61) and the SyntaxError
thrown by `new RegExp` (line 33) when the translated filename pattern
is not a valid regex, reached through line 56 before the loop starts.
Neither carries a result payload. -/
inductive SearchError where
  | timedOut
  | badPattern
deriving DecidableEq

/-- Processing of one directory listing (the `for (const dirent of
files)` body, src/server.js lines 73-133): in entry order, an entry
whose stat fails is skipped; a directory entry is appended to the queue
when `recursive` holds; a file entry is run through the filter chain
and on success appended to the results.  Returns (new match records,
directories to enqueue), each in entry order. -/
def processEntries (cfg : SearchConfig) (mimeLookup : String → Option String)
    (dirPath : String) :
    List (String × FSNode) → List MatchRecord × List (String × FSNode)
  | [] => ([], [])
  | (name, node) :: rest =>
    let r := processEntries cfg mimeLookup dirPath rest
    let filePath := joinPath dirPath name
    match node with
    | FSNode.inaccessible => r
    | FSNode.dirOk es =>
      (r.1, if cfg.recursive then (filePath, FSNode.dirOk es) :: r.2 else r.2)
    | FSNode.dirFail =>
      (r.1, if cfg.recursive then (filePath, FSNode.dirFail) :: r.2 else r.2)
    | FSNode.file st content =>
      let mimeType := (mimeLookup filePath).getD "application/octet-stream"
      if fileMatches cfg mimeType name st content then
        (⟨filePath, st.size, st.birthtime, st.mtime, mimeType⟩ :: r.1, r.2)
      else r

/-- Total size of the pending queue, the termination measure of the
traversal loop. -/
def queueMeasure (q : List (String × FSNode)) : Nat := entsSize q

/-- The traversal loop (src/server.js lines 59-135): while the queue is
non-empty and fewer than `maxResults` matches have accumulated, check
the clock (the `elapsed` oracle gives the elapsed milliseconds at the
k-th pop), pop the head of the queue, list it (a node that is not a
listable directory is the `readdir` failure, silently skipped), process
its entries, enqueue discovered directories at the tail and append
matches. -/
def findFilesLoop (cfg : SearchConfig) (mimeLookup : String → Option String)
    (elapsed : Nat → Nat) :
    Nat → List (String × FSNode) → List MatchRecord →
    Except SearchError (List MatchRecord)
  | _, [], results => Except.ok results
  | k, (p, node) :: rest, results =>
    if results.length < cfg.maxResults then
      if elapsed k > cfg.timeoutMs then Except.error SearchError.timedOut
      else
        match node with
        | FSNode.dirOk es =>
          let r := processEntries cfg mimeLookup p es
          findFilesLoop cfg mimeLookup elapsed (k + 1) (rest ++ r.2)
            (results ++ r.1)
        | FSNode.file _ _ =>
          findFilesLoop cfg mimeLookup elapsed (k + 1) rest results
        | FSNode.dirFail =>
          findFilesLoop cfg mimeLookup elapsed (k + 1) rest results
        | FSNode.inaccessible =>
          findFilesLoop cfg mimeLookup elapsed (k + 1) rest results
    else Except.ok results
termination_by _ q _ => queueMeasure q
decreasing_by
  · have hs : ∀ es2, entsSize (processEntries cfg mimeLookup p es2).2 ≤
        entsSize es2 := by
      intro es2
      induction es2 with
      | nil => simp [processEntries, entsSize]
      | cons e rest2 ih =>
        obtain ⟨name2, node2⟩ := e
        cases node2 with
        | inaccessible =>
          simp only [processEntries, entsSize, FSNode.size]
          omega
        | dirOk es3 =>
          cases hr : cfg.recursive <;>
            simp only [processEntries, entsSize, FSNode.size, hr,
              Bool.false_eq_true, if_true, if_false, ite_true, ite_false] <;>
            omega
        | dirFail =>
          cases hr : cfg.recursive <;>
            simp only [processEntries, entsSize, FSNode.size, hr,
              Bool.false_eq_true, if_true, if_false, ite_true, ite_false] <;>
            omega
        | file st2 content2 =>
          cases hm : fileMatches cfg
              ((mimeLookup (joinPath p name2)).getD
                "application/octet-stream") name2 st2 content2 <;>
            simp only [processEntries, entsSize, FSNode.size, hm,
              Bool.false_eq_true, if_true, if_false, ite_true, ite_false] <;>
            omega
    have happ : ∀ (a b : List (String × FSNode)),
        entsSize (a ++ b) = entsSize a + entsSize b := by
      intro a b
      induction a with
      | nil => simp [entsSize]
      | cons e rest2 ih => simp [entsSize, ih]; omega
    have h := hs es
    simp only [queueMeasure, entsSize, FSNode.size, happ]
    omega
  all_goals
    simp only [queueMeasure, entsSize, FSNode.size]
    omega

/-- Embedding of `findFiles` (src/server.js lines 37-138).  Line 56
compiles the filename pattern before the loop; `new RegExp` (line 33)
throws a SyntaxError when untranslated metacharacters make the
translated pattern invalid — for example filename "(" yields the
unterminated group `^($` and "+" yields `^+$` (nothing to repeat) —
whereas every `plainPattern` pattern compiles, since each of its
untranslated characters is a regex literal.  The model maps the whole
non-plain region to the SyntaxError outcome; within that region the
source can also accept a pattern whose semantics lie outside the
translation fragment (for example "a+"), so theorems quantifying over
patterns carry a `plainPattern` hypothesis and concrete error cases use
only certainly-invalid patterns such as "(".  With an absent or
compiled pattern, the queue is seeded with the start directories and
the loop runs from an empty accumulator. -/
def findFiles (cfg : SearchConfig) (mimeLookup : String → Option String)
    (elapsed : Nat → Nat) (startDirs : List (String × FSNode)) :
    Except SearchError (List MatchRecord) :=
  if truthyStr cfg.filename && !plainPattern (cfg.filename.getD "") then
    Except.error SearchError.badPattern
  else
    findFilesLoop cfg mimeLookup elapsed 0 startDirs []

/-- Fixture: a configuration with every filter inactive. -/
def cfgNoFilters : SearchConfig :=
  ⟨none, none, none, none, none, none, none, none, true, false, none, none,
    1000, 30000⟩

/-- Fixture: a configuration with every filter inactive and
`maxResults = 1`. -/
def cfgCapOne : SearchConfig :=
  ⟨none, none, none, none, none, none, none, none, true, false, none, none,
    1, 30000⟩

/-- Fixture: a classifier that recognizes nothing, so every file falls
back to `application/octet-stream`. -/
def mimeNone : String → Option String := fun _ => none

/-- Fixture: a clock on which no time ever passes. -/
def clock0 : Nat → Nat := fun _ => 0

/-- Fixture: start directories A and B, each with one top-level file and
one subdirectory holding one file. -/
def rootsAB : List (String × FSNode) :=
  [("A", FSNode.dirOk [("f.txt", FSNode.file ⟨1, 0, 0⟩ none),
    ("S", FSNode.dirOk [("x.txt", FSNode.file ⟨2, 0, 0⟩ none)])]),
   ("B", FSNode.dirOk [("g.txt", FSNode.file ⟨3, 0, 0⟩ none),
    ("T", FSNode.dirOk [("y.txt", FSNode.file ⟨4, 0, 0⟩ none)])])]

/-- Fixture: a start directory whose listing fails, followed by a
directory holding one entry whose stat fails and one readable file. -/
def faultyRoots : List (String × FSNode) :=
  [("bad", FSNode.dirFail),
   ("d", FSNode.dirOk [("u", FSNode.inaccessible),
    ("ok.txt", FSNode.file ⟨3, 0, 0⟩ none)])]

/-- A configuration in which only the date bounds are set. -/
def onlyDates (ca cb ma mb : Option Int) : SearchConfig :=
  ⟨none, none, none, none, ca, cb, ma, mb, true, false, none, none,
    1000, 30000⟩

/-- A configuration in which only the size bounds are set. -/
def onlySizes (mn mx : Option Nat) : SearchConfig :=
  ⟨none, none, mn, mx, none, none, none, none, true, false, none, none,
    1000, 30000⟩

/-- A configuration in which only `contentSearch` is set. -/
def onlyContent (s : String) : SearchConfig :=
  ⟨none, none, none, none, none, none, none, none, true, false, some s,
    none, 1000, 30000⟩

/-- A configuration in which only `filename` (and the case flag) is
set. -/
def onlyFilename (p : String) (cs : Bool) : SearchConfig :=
  ⟨some p, none, none, none, none, none, none, none, true, cs, none, none,
    1000, 30000⟩

/-- The case normalization the engine applies to the tested name and to
the fallback pattern (src/server.js lines 93-94). -/
def caseFold (cs : Bool) (s : String) : String :=
  if cs then s else strLower s

/-- Modelled from the spec: name matching as if both the candidate name
and the pattern were folded to a single case before the wildcard
pattern is compiled and tested (with the same substring fallback).
This is the behavior the C4 claim describes; it is compared with
`fileMatches` below. -/
def foldedNameAccept (p n : String) : Bool :=
  wildcardTest (strLower p) (strLower n) ||
    strIncludes (strLower n) (strLower p)

theorem hasSub_nil (l : List Char) : hasSub [] l = true := by
  cases l <;> simp [hasSub, subAt]

theorem notDecideLt (a b : Int) : (!decide (a < b)) = decide (b ≤ a) := by
  by_cases h : a < b
  · simp [h, not_le.mpr h]
  · simp [h, not_lt.mp h]

theorem notDecideLe (a b : Int) : (!decide (a ≤ b)) = decide (b < a) := by
  by_cases h : a ≤ b
  · simp [h, not_lt.mpr h]
  · simp [h, not_le.mp h]

theorem nltTails_any_isEmpty (l : List Char) :
    ((nltTails l).any fun ys => ys.isEmpty) = l.all fun c => !isLineTerm c := by
  induction l with
  | nil => simp [nltTails]
  | cons x rest ih =>
    cases hx : isLineTerm x <;>
      simp [nltTails, hx, List.any_cons, List.isEmpty_cons, ih]

theorem wildcardTest_star (s : String) :
    wildcardTest "*" s = s.data.all fun c => !isLineTerm c := by
  have h : compileWildcard "*" = [WTok.star] := by decide
  have h2 : ∀ ys, wmatch [] ys = ys.isEmpty := fun ys => rfl
  simp only [wildcardTest, h, wmatch, h2]
  exact nltTails_any_isEmpty s.data

theorem wildcardTest_qmark (s : String) :
    wildcardTest "?" s =
      (decide (s.length = 1) && s.data.all fun c => !isLineTerm c) := by
  obtain ⟨l⟩ := s
  have h : compileWildcard "?" = [WTok.anyc] := by decide
  simp only [wildcardTest, h]
  show wmatch [WTok.anyc] l =
    (decide (String.length ⟨l⟩ = 1) && l.all fun c => !isLineTerm c)
  cases l with
  | nil => simp [wmatch]
  | cons x rest =>
    cases rest with
    | nil => simp [wmatch, String.length, List.isEmpty]
    | cons y rest2 => simp [wmatch, String.length, List.isEmpty]

theorem wildcardTest_dot (s : String) :
    wildcardTest "." s = decide (s = ".") := by
  obtain ⟨l⟩ := s
  have h : compileWildcard "." = [WTok.lit '.'] := by decide
  simp only [wildcardTest, h]
  have heq : (String.mk l = ".") ↔ l = ['.'] := by
    rw [show ("." : String) = String.mk ['.'] from rfl]
    exact ⟨fun hh => by injection hh, fun hh => by rw [hh]⟩
  rw [decide_eq_decide.mpr heq]
  cases l with
  | nil => simp [wmatch]
  | cons x rest =>
    cases rest with
    | nil =>
      show (decide ('.' = x) && List.isEmpty []) = decide ([x] = ['.'])
      simp [eq_comm]
    | cons y rest2 =>
      show (decide ('.' = x) && List.isEmpty (y :: rest2)) =
        decide (x :: y :: rest2 = ['.'])
      simp [List.isEmpty]

theorem name_union (cs : Bool) (p n mt : String) (st : FileStat)
    (c : Option String) (hp : plainPattern p = true) :
    fileMatches (onlyFilename p cs) mt n st c =
      (wildcardTest p (caseFold cs n) ||
       strIncludes (caseFold cs n) (caseFold cs p)) := by
  by_cases hp0 : p = ""
  · subst hp0
    cases cs <;>
      simp [fileMatches, onlyFilename, truthyStr, truthyNum, caseFold,
        strIncludes, strLower, hasSub_nil]
  · cases cs <;>
      simp [fileMatches, onlyFilename, truthyStr, truthyNum, caseFold, hp0]

theorem findFilesLoop_ok (cfg : SearchConfig)
    (mimeLookup : String → Option String) (elapsed : Nat → Nat)
    (h : ∀ k, elapsed k ≤ cfg.timeoutMs) (k : Nat)
    (q : List (String × FSNode)) (res : List MatchRecord) :
    ∃ rs, findFilesLoop cfg mimeLookup elapsed k q res = Except.ok rs := by
  induction k, q, res using findFilesLoop.induct cfg mimeLookup elapsed with
  | case1 x results => exact ⟨results, findFilesLoop.eq_1 ..⟩
  | case2 k p node rest results hlt htime =>
    exact absurd htime (Nat.not_lt.mpr (h k))
  | case3 k p rest results hlt htime es r ih =>
    obtain ⟨rs, hrs⟩ := ih
    exact ⟨rs, by rw [findFilesLoop.eq_2, if_pos hlt, if_neg htime]; exact hrs⟩
  | case4 k p rest results hlt htime st content ih =>
    obtain ⟨rs, hrs⟩ := ih
    exact ⟨rs, by rw [findFilesLoop.eq_3, if_pos hlt, if_neg htime]; exact hrs⟩
  | case5 k p rest results hlt htime ih =>
    obtain ⟨rs, hrs⟩ := ih
    exact ⟨rs, by rw [findFilesLoop.eq_4, if_pos hlt, if_neg htime]; exact hrs⟩
  | case6 k p rest results hlt htime ih =>
    obtain ⟨rs, hrs⟩ := ih
    exact ⟨rs, by rw [findFilesLoop.eq_5, if_pos hlt, if_neg htime]; exact hrs⟩
  | case7 k p node rest results hge =>
    refine ⟨results, ?_⟩
    cases node with
    | file st content => rw [findFilesLoop.eq_3, if_neg hge]
    | dirOk es => rw [findFilesLoop.eq_2, if_neg hge]
    | dirFail => rw [findFilesLoop.eq_4, if_neg hge]
    | inaccessible => rw [findFilesLoop.eq_5, if_neg hge]

/-- C1: the claim says the number of returned matches never exceeds
`maxResults`.  The code checks the cap only between directory pops
(src/server.js line 59), never inside the per-entry loop, so one
directory contributes all of its matching files: with `maxResults = 1`
and one start directory holding two matching files, `findFiles` returns
two match records — the cap is exceeded. -/
theorem C1_cap_exceeded :
    findFiles cfgCapOne mimeNone clock0
      [("d", FSNode.dirOk [("a", FSNode.file ⟨1, 0, 0⟩ none),
        ("b", FSNode.file ⟨2, 0, 0⟩ none)])] =
      Except.ok [⟨"d/a", 1, 0, 0, "application/octet-stream"⟩,
        ⟨"d/b", 2, 0, 0, "application/octet-stream"⟩] ∧
    cfgCapOne.maxResults = 1 := by
  constructor
  · simp [findFiles, findFilesLoop, processEntries, fileMatches, joinPath,
      truthyStr, truthyNum, cfgCapOne, mimeNone, clock0]
  · rfl

/-- C2 counterexample: the claim says a file whose mtime equals
`modifiedAfter` is excluded (strict inequality).  The code skips a file
only when `stats.mtime < modifiedAfter` (src/server.js line 108), so a
tie passes the filter chain. -/
theorem C2_tie_passes :
    fileMatches (onlyDates none none (some 5) none)
      "application/octet-stream" "f.txt" ⟨1, 0, 5⟩ none = true := by decide

/-- C2 (amended): all four date bounds are inclusive, not strict — a
timestamp equal to the bound passes; `createdAfter`/`modifiedAfter`
exclude only strictly earlier timestamps and
`createdBefore`/`modifiedBefore` only strictly later ones. -/
theorem C2_date_bounds_inclusive (ca cb ma mb : Option Int) (mt fn : String)
    (st : FileStat) (c : Option String) :
    fileMatches (onlyDates ca cb ma mb) mt fn st c =
      (ca.elim true (fun t => decide (t ≤ st.birthtime)) &&
       cb.elim true (fun t => decide (st.birthtime ≤ t)) &&
       ma.elim true (fun t => decide (t ≤ st.mtime)) &&
       mb.elim true (fun t => decide (st.mtime ≤ t))) := by
  cases ca <;> cases cb <;> cases ma <;> cases mb <;>
    simp [fileMatches, onlyDates, truthyStr, truthyNum, Option.elim,
      notDecideLt, notDecideLe]

/-- C3 counterexample: the claim says that with `contentSearch` set a
file not classified as textual is never a match.  The code initializes
`contentMatch = true` and only overwrites it for `text/` files
(src/server.js lines 115-124), so a non-textual file passes the content
filter without its content ever being read or containing the needle. -/
theorem C3_nontextual_matches :
    fileMatches (onlyContent "needle") "application/pdf" "f.pdf"
      ⟨1, 0, 0⟩ none = true ∧
    strStarts "application/pdf" "text/" = false := by decide

/-- C3 (amended): when `contentSearch` is set (non-empty), a file whose
classifier label starts with `text/` matches exactly when its decoded
content contains the needle (an unreadable content fails closed), while
a file with any other label passes the content filter unconditionally. -/
theorem C3_content_gate (s mt fn : String) (st : FileStat)
    (c : Option String) (hs : s ≠ "") :
    fileMatches (onlyContent s) mt fn st c =
      (if strStarts mt "text/" then c.elim false (fun txt => strIncludes txt s)
       else true) := by
  by_cases ht : strStarts mt "text/" <;> cases c <;>
    simp [fileMatches, onlyContent, truthyStr, truthyNum, hs, ht, Option.elim]

/-- C3 witness: the amended content gate evaluated at a concrete textual
file. -/
theorem C3_content_gate_witness :
    fileMatches (onlyContent "x") "text/plain" "a.txt" ⟨1, 0, 0⟩
      (some "xyz") =
      (if strStarts "text/plain" "text/" then
        (some "xyz").elim false (fun txt => strIncludes txt "x")
       else true) :=
  C3_content_gate "x" "text/plain" "a.txt" ⟨1, 0, 0⟩ (some "xyz") (by decide)

/-- C4 counterexample: the claim says case-insensitive matching behaves
as if both the name and the pattern were folded before the wildcard
pattern is compiled and tested.  The code compiles the regex from the
original pattern once (src/server.js line 56) and folds only the tested
name (line 93), so pattern "A*" with `caseSensitive = false` rejects
"abc" although the both-folded semantics (`foldedNameAccept`) accepts
it. -/
theorem C4_pattern_not_folded :
    fileMatches (onlyFilename "A*" false) "application/octet-stream" "abc"
      ⟨1, 0, 0⟩ none = false ∧
    foldedNameAccept "A*" "abc" = true := by decide

/-- C4 (amended): with `caseSensitive = false` the candidate name is
lowercased but the wildcard pattern is compiled unfolded; only the
substring fallback compares lowercased pattern against lowercased name.
Pattern "REPORT" still matches "report.pdf", via that fallback.
(The quantified part assumes `plainPattern`, i.e. the pattern is free
of untranslated JS-regex metacharacters, where the embedding of the
compiled pattern is exact.) -/
theorem C4_fold_semantics :
    (∀ (p n mt : String) (st : FileStat) (c : Option String),
      plainPattern p = true →
      fileMatches (onlyFilename p false) mt n st c =
        (wildcardTest p (strLower n) ||
         strIncludes (strLower n) (strLower p))) ∧
    fileMatches (onlyFilename "REPORT" false) "application/pdf"
      "report.pdf" ⟨5, 0, 0⟩ none = true := by
  constructor
  · intro p n mt st c hp
    simpa [caseFold] using name_union false p n mt st c hp
  · decide

/-- C4 witness: the amended name semantics evaluated at the REPORT
example. -/
theorem C4_fold_semantics_witness :
    fileMatches (onlyFilename "REPORT" false) "application/octet-stream"
      "report.pdf" ⟨5, 0, 0⟩ none =
      (wildcardTest "REPORT" (strLower "report.pdf") ||
       strIncludes (strLower "report.pdf") (strLower "REPORT")) :=
  C4_fold_semantics.1 "REPORT" "report.pdf" "application/octet-stream"
    ⟨5, 0, 0⟩ none (by decide)

/-- C5 counterexample: the claim says `*` matches any run of characters
and `?` matches exactly one character, but the source compiles them to
JS regex `.`-forms without the `s` flag (line 33), and JS `.` does not
match line terminators: the translated anchored patterns reject "a\nb"
under `*` and "\n" under `?`, a one-character string the claim says
`?` must match. -/
theorem C5_lineterm_rejected :
    wildcardTest "*" "a\nb" = false ∧
    wildcardTest "?" "\n" = false ∧
    ("\n" : String).length = 1 := by decide

/-- C5 (amended): the wildcard matcher escapes literal `.`, anchors the
match at both ends, and translates `*` into "any run of
non-line-terminator characters (possibly empty)" and `?` into "exactly
one non-line-terminator character" (JS `.` without the `s` flag
excludes `\n`, `\r`, U+2028, U+2029).  All the claim's concrete
examples hold: `*.txt` matches "a.txt" and "b.c.txt" but not "a.txtx";
`file?` matches "file1" but neither "file12" nor "file"; a literal `.`
matches only `.`.  The one-character characterization of `?` is stated
for strings of basic-plane characters, on which Lean code points and
the JS regex's UTF-16 code units coincide. -/
theorem C5_wildcard_semantics :
    (∀ s, wildcardTest "*" s = s.data.all fun c => !isLineTerm c) ∧
    (∀ s : String, (s.data.all fun c => decide (c.toNat < 65536)) = true →
      wildcardTest "?" s =
        (decide (s.length = 1) && s.data.all fun c => !isLineTerm c)) ∧
    (∀ s, wildcardTest "." s = decide (s = ".")) ∧
    wildcardTest "*.txt" "a.txt" = true ∧
    wildcardTest "*.txt" "b.c.txt" = true ∧
    wildcardTest "*.txt" "a.txtx" = false ∧
    wildcardTest "file?" "file1" = true ∧
    wildcardTest "file?" "file12" = false ∧
    wildcardTest "file?" "file" = false ∧
    wildcardTest "a.b" "a.b" = true ∧
    wildcardTest "a.b" "axb" = false :=
  ⟨wildcardTest_star, fun s _ => wildcardTest_qmark s, wildcardTest_dot,
   by decide, by decide, by decide, by decide, by decide, by decide,
   by decide, by decide⟩

/-- C5 witness: the one-character conjunct applied at a concrete
basic-plane string. -/
theorem C5_wildcard_semantics_witness :
    wildcardTest "?" "a" =
      (decide (("a" : String).length = 1) &&
       ("a" : String).data.all fun c => !isLineTerm c) :=
  C5_wildcard_semantics.2.1 "a" (by decide)

/-- C6: the name filter accepts a file iff the anchored wildcard match
on the (possibly folded) name succeeds OR the (possibly folded) name
contains the (possibly folded) raw pattern as a plain substring; in
particular pattern "test" matches "mytest.log" although the anchored
match fails.  (The quantified part assumes `plainPattern`, where the
embedding of the compiled pattern is exact.) -/
theorem C6_union_fallback :
    (∀ (cs : Bool) (p n mt : String) (st : FileStat) (c : Option String),
      plainPattern p = true →
      fileMatches (onlyFilename p cs) mt n st c =
        (wildcardTest p (caseFold cs n) ||
         strIncludes (caseFold cs n) (caseFold cs p))) ∧
    fileMatches (onlyFilename "test" false) "application/octet-stream"
      "mytest.log" ⟨1, 0, 0⟩ none = true ∧
    wildcardTest "test" "mytest.log" = false := by
  refine ⟨?_, by decide, by decide⟩
  intro cs p n mt st c hp
  exact name_union cs p n mt st c hp

/-- C6 witness: the union semantics evaluated at the "test" example. -/
theorem C6_union_fallback_witness :
    fileMatches (onlyFilename "test" false) "text/plain" "mytest.log"
      ⟨1, 0, 0⟩ none =
      (wildcardTest "test" (caseFold false "mytest.log") ||
       strIncludes (caseFold false "mytest.log") (caseFold false "test")) :=
  C6_union_fallback.1 false "test" "mytest.log" "text/plain" ⟨1, 0, 0⟩ none
    (by decide)

/-- C7 counterexample: the claim says the only error `findFiles` ever
surfaces is the timeout failure, but with filename "(" line 56 calls
`wildcardToRegex("(")` and `new RegExp("^($")` (line 33) throws a
SyntaxError (unterminated group) before any traversal — a non-timeout
failure surfaced to the caller. -/
theorem C7_regex_error_surfaced :
    findFiles (onlyFilename "(" false) mimeNone clock0 rootsAB =
      Except.error SearchError.badPattern ∧
    SearchError.badPattern ≠ SearchError.timedOut := by
  constructor
  · simp [findFiles, onlyFilename, truthyStr, plainPattern]
  · decide

/-- C7 (amended): `findFiles` surfaces exactly two kinds of failure —
the pattern SyntaxError, raised before traversal when a set filename
pattern does not compile, and the timeout.  When the filename pattern
is absent or free of untranslated regex metacharacters, every
directory-listing and per-entry stat failure is absorbed by skipping
that unit while the search continues, and on a clock that never
exceeds the budget the result is a success; a search that finds
nothing is the success `Except.ok []`, distinct from both failures,
and a failure carries no result payload. -/
theorem C7_all_or_timeout :
    (∀ (cfg : SearchConfig) (mime : String → Option String)
       (el : Nat → Nat) (roots : List (String × FSNode)),
       plainPattern (cfg.filename.getD "") = true →
       (∀ k, el k ≤ cfg.timeoutMs) →
       ∃ rs, findFiles cfg mime el roots = Except.ok rs) ∧
    (∀ (cfg : SearchConfig) (mime : String → Option String)
       (el : Nat → Nat) (roots : List (String × FSNode)),
       (∃ rs, findFiles cfg mime el roots = Except.ok rs) ∨
       findFiles cfg mime el roots = Except.error SearchError.timedOut ∨
       findFiles cfg mime el roots = Except.error SearchError.badPattern) ∧
    findFiles cfgNoFilters mimeNone clock0 faultyRoots =
      Except.ok [⟨"d/ok.txt", 3, 0, 0, "application/octet-stream"⟩] ∧
    findFiles cfgNoFilters mimeNone clock0 [("e", FSNode.dirOk [])] =
      Except.ok [] ∧
    (Except.ok ([] : List MatchRecord) ≠
      (Except.error SearchError.timedOut :
        Except SearchError (List MatchRecord)) ∧
     Except.ok ([] : List MatchRecord) ≠
      (Except.error SearchError.badPattern :
        Except SearchError (List MatchRecord))) ∧
    findFiles cfgNoFilters mimeNone (fun _ => 30001) rootsAB =
      Except.error SearchError.timedOut := by
  refine ⟨?_, ?_, ?_, ?_, ⟨by simp, by simp⟩, ?_⟩
  · intro cfg mime el roots hp h
    simp only [findFiles, hp, Bool.not_true, Bool.and_false,
      Bool.false_eq_true, if_false, ite_false]
    exact findFilesLoop_ok cfg mime el h 0 roots []
  · intro cfg mime el roots
    cases findFiles cfg mime el roots with
    | ok rs => exact Or.inl ⟨rs, rfl⟩
    | error e => cases e with
      | timedOut => exact Or.inr (Or.inl rfl)
      | badPattern => exact Or.inr (Or.inr rfl)
  · simp [findFiles, findFilesLoop, processEntries, fileMatches, joinPath,
      truthyStr, truthyNum, cfgNoFilters, mimeNone, clock0, faultyRoots]
  · simp [findFiles, findFilesLoop, processEntries, cfgNoFilters, mimeNone,
      clock0, truthyStr]
  · simp [findFiles, findFilesLoop, cfgNoFilters, rootsAB, truthyStr]

/-- C7 witness: the no-error part applied to a concrete search on an
idle clock. -/
theorem C7_all_or_timeout_witness :
    ∃ rs, findFiles cfgNoFilters mimeNone clock0 rootsAB = Except.ok rs :=
  C7_all_or_timeout.1 cfgNoFilters mimeNone clock0 rootsAB (by decide)
    (fun _ => Nat.zero_le _)

/-- C8: traversal is breadth-first via a FIFO queue: one step removes
the head directory and appends its discovered subdirectories at the
tail (first conjunct, the loop's step equation), so with start
directories [A, B] each holding one file and one subdirectory with one
file, the two top-level files appear in the result sequence before
either subdirectory's file (second conjunct). -/
theorem C8_fifo_bfs :
    (∀ (cfg : SearchConfig) (mime : String → Option String)
       (el : Nat → Nat) (k : Nat) (p : String)
       (es rest : List (String × FSNode)) (res : List MatchRecord),
       res.length < cfg.maxResults → el k ≤ cfg.timeoutMs →
       findFilesLoop cfg mime el k ((p, FSNode.dirOk es) :: rest) res =
         findFilesLoop cfg mime el (k + 1)
           (rest ++ (processEntries cfg mime p es).2)
           (res ++ (processEntries cfg mime p es).1)) ∧
    findFiles cfgNoFilters mimeNone clock0 rootsAB =
      Except.ok [⟨"A/f.txt", 1, 0, 0, "application/octet-stream"⟩,
        ⟨"B/g.txt", 3, 0, 0, "application/octet-stream"⟩,
        ⟨"A/S/x.txt", 2, 0, 0, "application/octet-stream"⟩,
        ⟨"B/T/y.txt", 4, 0, 0, "application/octet-stream"⟩] := by
  constructor
  · intro cfg mime el k p es rest res hlt hle
    rw [findFilesLoop.eq_2, if_pos hlt, if_neg (Nat.not_lt.mpr hle)]
  · simp [findFiles, findFilesLoop, processEntries, fileMatches, joinPath,
      truthyStr, truthyNum, cfgNoFilters, mimeNone, clock0, rootsAB]

/-- C8 witness: the FIFO step equation applied at a concrete queue. -/
theorem C8_fifo_bfs_witness :
    findFilesLoop cfgNoFilters mimeNone clock0 0
      [("A", FSNode.dirOk [])] [] =
      findFilesLoop cfgNoFilters mimeNone clock0 1
        ([] ++ (processEntries cfgNoFilters mimeNone "A" []).2)
        ([] ++ (processEntries cfgNoFilters mimeNone "A" []).1) :=
  C8_fifo_bfs.1 cfgNoFilters mimeNone clock0 0 "A" [] [] []
    (by decide) (by decide)

/-- C9 counterexample: the claim quantifies over every set `maxSize`,
but `maxSize = 0` is falsy in JS (src/server.js line 103), so the
maximum-size filter is skipped and a file of `maxSize + 1 = 1` bytes
passes instead of being excluded. -/
theorem C9_maxsize_zero :
    fileMatches (onlySizes none (some 0)) "application/octet-stream" "f"
      ⟨1, 0, 0⟩ none = true := by decide

/-- C9 (amended): the size bounds are inclusive — a file of exactly
`minSize` bytes passes, a file of exactly `maxSize` bytes passes, and a
file of `maxSize + 1` bytes is excluded provided `maxSize ≠ 0` (a zero
bound is falsy and deactivates the filter). -/
theorem C9_size_inclusive :
    (∀ (mn : Nat) (mt fn : String) (bt mtm : Int) (c : Option String),
      fileMatches (onlySizes (some mn) none) mt fn ⟨mn, bt, mtm⟩ c = true) ∧
    (∀ (mx : Nat) (mt fn : String) (bt mtm : Int) (c : Option String),
      fileMatches (onlySizes none (some mx)) mt fn ⟨mx, bt, mtm⟩ c = true) ∧
    (∀ (mx : Nat) (mt fn : String) (bt mtm : Int) (c : Option String),
      mx ≠ 0 →
      fileMatches (onlySizes none (some mx)) mt fn ⟨mx + 1, bt, mtm⟩ c =
        false) := by
  refine ⟨?_, ?_, ?_⟩
  · intro mn mt fn bt mtm c
    by_cases h : mn = 0 <;>
      simp [fileMatches, onlySizes, truthyStr, truthyNum, h]
  · intro mx mt fn bt mtm c
    by_cases h : mx = 0 <;>
      simp [fileMatches, onlySizes, truthyStr, truthyNum, h]
  · intro mx mt fn bt mtm c hmx
    simp [fileMatches, onlySizes, truthyStr, truthyNum, hmx]

/-- C9 witness: the exclusion part evaluated at `maxSize = 7` and a file
of 8 bytes. -/
theorem C9_size_inclusive_witness :
    fileMatches (onlySizes none (some 7)) "application/octet-stream" "f"
      ⟨8, 0, 0⟩ none = false :=
  C9_size_inclusive.2.2 7 "application/octet-stream" "f" 0 0 none (by decide)

/-- C10: a zero `minSize` or `maxSize` is falsy (src/server.js lines
102-103) and deactivates that size filter entirely: with `minSize = 0`
every file passes the minimum-size check and with `maxSize = 0` every
file, of any size, passes the maximum-size check. -/
theorem C10_zero_disables :
    (∀ (sz : Nat) (mt fn : String) (bt mtm : Int) (c : Option String),
      fileMatches (onlySizes (some 0) none) mt fn ⟨sz, bt, mtm⟩ c = true) ∧
    (∀ (sz : Nat) (mt fn : String) (bt mtm : Int) (c : Option String),
      fileMatches (onlySizes none (some 0)) mt fn ⟨sz, bt, mtm⟩ c = true) ∧
    (∀ (sz : Nat) (mt fn : String) (bt mtm : Int) (c : Option String),
      fileMatches (onlySizes (some 0) (some 0)) mt fn ⟨sz, bt, mtm⟩ c =
        true) := by
  refine ⟨?_, ?_, ?_⟩ <;> intro sz mt fn bt mtm c <;>
    simp [fileMatches, onlySizes, truthyStr, truthyNum]
